import Mathlib

/-!
Shallow embedding of the Club Coordination Workflow Engine
(src/auth.py and src/flask_app.py): the relational state is a record of
row lists, each Flask handler becomes a state-passing function returning
its HTTP-level outcome, the successor state, the outbound mails and the
flash messages.  SQL auto-increment ids are modelled by explicit
`next*Id` counters.
-/

set_option maxHeartbeats 1000000

namespace Interclub

/-- Row of the `users` table (src/auth.py, class User). -/
structure UserRow where
  id : Nat
  first_name : String
  last_name : String
  email : String
  license_number : String
  club_id : Nat
  role : String
  password_hash : String
deriving DecidableEq, Repr

/-- Row of the `teams` table. -/
structure TeamRow where
  id : Nat
  club_id : Nat
  name : String
  captain_id : Nat
deriving DecidableEq, Repr

/-- Row of the `team_membership` table (`is_approved` is the 0/1 SQL flag). -/
structure MembershipRow where
  user_id : Nat
  team_id : Nat
  is_approved : Nat
  approved_at : Option String
deriving DecidableEq, Repr

/-- Row of the SQL table of matches (`matchesTable` in `DBState`, since
the table's SQL name is a reserved word in Lean). -/
structure MatchRow where
  id : Nat
  team_id : Nat
  opponent : String
  location : String
  status : String
  final_date : Option String
deriving DecidableEq, Repr

/-- Row of the `match_dates` table. -/
structure MatchDateRow where
  id : Nat
  match_id : Nat
  proposed_datetime : String
deriving DecidableEq, Repr

/-- Row of the `availability` table. -/
structure AvailabilityRow where
  match_date_id : Nat
  user_id : Nat
  available : Nat
deriving DecidableEq, Repr

/-- Row of the `lineup` table. -/
structure LineupRow where
  match_id : Nat
  user_id : Nat
  confirmed : Nat
deriving DecidableEq, Repr

/-- Row of the `match_tasks` table. -/
structure MatchTaskRow where
  match_id : Nat
  task : String
  user_id : Nat
deriving DecidableEq, Repr

/-- Row of the `match_messages` table. -/
structure MatchMessageRow where
  match_id : Nat
  user_id : Nat
  content : String
deriving DecidableEq, Repr

/-- Row of the `license_club_map` table; `pref` is the column
`license_prefix` of the source. -/
structure MappingRow where
  pref : String
  club_id : Nat
deriving DecidableEq, Repr

/-- The relational store.  The `next*Id` counters model the MySQL
auto-increment columns: a freshly inserted row receives the counter value
and the counter steps. -/
structure DBState where
  users : List UserRow
  teams : List TeamRow
  memberships : List MembershipRow
  matchesTable : List MatchRow
  match_dates : List MatchDateRow
  availability : List AvailabilityRow
  lineup : List LineupRow
  match_tasks : List MatchTaskRow
  match_messages : List MatchMessageRow
  license_club_map : List MappingRow
  nextUserId : Nat
  nextTeamId : Nat
  nextMatchId : Nat
  nextDateId : Nat
deriving DecidableEq, Repr

/-- An outbound notification handed to `send_email`. -/
structure Mail where
  to_email : String
  subject : String
  body : String
deriving DecidableEq, Repr

/-- HTTP-level outcome of a handler: the literal error responses of
flask_app.py, or a redirect to a named endpoint, or a rendered page. -/
inductive Resp where
  | unauthorized
  | notFound
  | invalidDate
  | serverError
  | redirect (target : String)
  | page
deriving DecidableEq, Repr

/-- Result of one handler invocation: outcome, successor state, outbound
mails and flash messages (message, category). -/
structure HResult where
  resp : Resp
  st : DBState
  mails : List Mail
  flashes : List (String × String)
deriving DecidableEq, Repr

/-- Python `str.strip()`: drop leading and trailing whitespace.  Written on
the character list so that it evaluates by kernel reduction. -/
def strTrim (s : String) : String :=
  ⟨((s.data.dropWhile Char.isWhitespace).reverse.dropWhile Char.isWhitespace).reverse⟩

/-- Python `str.lower()`, written on the character list. -/
def strLower (s : String) : String :=
  ⟨s.data.map Char.toLower⟩

/-- Python `str.startswith(pre)`, written on the character lists. -/
def strStartsWith (s pre : String) : Bool :=
  pre.data.isPrefixOf s.data

/-- The `d.replace("T", " ")` normalisation of an HTML `datetime-local`
value (flask_app.py:434, 664): single-character replacement, written on
the character list. -/
def normDate (d : String) : String :=
  ⟨d.data.map (fun c => if c = 'T' then ' ' else c)⟩

/-- `require_captain` (flask_app.py:260): team lookup plus the
captain-or-club-admin check; `none` both when the team is missing and
when the actor fails the check. -/
def require_captain (s : DBState) (u : UserRow) (team_id : Nat) : Option TeamRow :=
  match s.teams.find? (fun t => t.id == team_id) with
  | none => none
  | some t =>
    if t.captain_id ≠ u.id ∧ u.role ≠ "club_admin" then none else some t

/-- `require_match_captain` (flask_app.py:477): match joined with its team,
then the captain-or-club-admin check. -/
def require_match_captain (s : DBState) (u : UserRow) (match_id : Nat) : Option MatchRow :=
  match s.matchesTable.find? (fun m => m.id == match_id) with
  | none => none
  | some m =>
    match s.teams.find? (fun t => t.id == m.team_id) with
    | none => none
    | some t =>
      if t.captain_id ≠ u.id ∧ u.role ≠ "club_admin" then none else some m

/-- `require_match_member` (flask_app.py:457): match joined with its team,
then an approved-membership-or-club-admin check. -/
def require_match_member (s : DBState) (u : UserRow) (match_id : Nat) : Option MatchRow :=
  match s.matchesTable.find? (fun m => m.id == match_id) with
  | none => none
  | some m =>
    match s.teams.find? (fun t => t.id == m.team_id) with
    | none => none
    | some _ =>
      let mem := s.memberships.find?
        (fun mb => mb.team_id == m.team_id && mb.user_id == u.id && mb.is_approved == 1)
      if mem = none ∧ u.role ≠ "club_admin" then none else some m

/-- The six DELETE statements shared by `match_delete` (flask_app.py:685-694)
and the per-match body of `team_delete` (flask_app.py:281-290): messages,
tasks, lineup, availability joined through the match's dates, the dates,
then the match row.  The availability join reads `st.match_dates` before
the dates are removed, exactly as the SQL sequence does. -/
def deleteMatchRows (st : DBState) (mid : Nat) : DBState :=
  { st with
    match_messages := st.match_messages.filter (fun r => !(r.match_id == mid))
    match_tasks := st.match_tasks.filter (fun r => !(r.match_id == mid))
    lineup := st.lineup.filter (fun r => !(r.match_id == mid))
    availability := st.availability.filter
      (fun a => !(st.match_dates.any (fun md => md.id == a.match_date_id && md.match_id == mid)))
    match_dates := st.match_dates.filter (fun md => !(md.match_id == mid))
    matchesTable := st.matchesTable.filter (fun m => !(m.id == mid)) }

/-- `team_delete` (flask_app.py:269): gate, then the manual cascade over
every match of the team, then memberships, then the team row. -/
def team_delete (s : DBState) (u : UserRow) (team_id : Nat) : HResult :=
  match require_captain s u team_id with
  | none => ⟨Resp.unauthorized, s, [], []⟩
  | some _ =>
    let mids := (s.matchesTable.filter (fun m => m.team_id == team_id)).map (fun m => m.id)
    let s1 := mids.foldl deleteMatchRows s
    let s2 := { s1 with
      memberships := s1.memberships.filter (fun mb => !(mb.team_id == team_id))
      teams := s1.teams.filter (fun t => !(t.id == team_id)) }
    ⟨Resp.redirect "teams", s2, [], [("Team gelöscht.", "success")]⟩

/-- `match_delete` (flask_app.py:677): gate, then the six-statement cascade. -/
def match_delete (s : DBState) (u : UserRow) (match_id : Nat) : HResult :=
  match require_match_captain s u match_id with
  | none => ⟨Resp.unauthorized, s, [], []⟩
  | some _ =>
    ⟨Resp.redirect "team_manage", deleteMatchRows s match_id, [],
      [("Match gelöscht.", "success")]⟩

/-- `safe_get_team_id` (flask_app.py:41): latest (largest) team id among the
rows matching (club_id, captain_id, name); `none` models the RuntimeError. -/
def safe_get_team_id (s : DBState) (club_id captain_id : Nat) (name : String) : Option Nat :=
  (s.teams.filter (fun t => t.club_id == club_id && t.captain_id == captain_id && t.name == name)).foldl
    (fun acc t => match acc with | none => some t.id | some b => some (max b t.id)) none

/-- `safe_get_match_id` (flask_app.py:54): latest (largest) match id among
the rows matching (team_id, opponent, location). -/
def safe_get_match_id (s : DBState) (team_id : Nat) (opponent location : String) : Option Nat :=
  (s.matchesTable.filter
    (fun m => m.team_id == team_id && m.opponent == opponent && m.location == location)).foldl
    (fun acc m => match acc with | none => some m.id | some b => some (max b m.id)) none

/-- `team_create_route_post` (flask_app.py:227): role gate (only captain or
club_admin pass — a plain player is turned away with a flash), empty-name
guard, team insert, id re-fetch, approved membership insert stamped `now`.
No statement of the handler ever touches the users table. -/
def team_create_route_post (s : DBState) (u : UserRow) (name now : String) : HResult :=
  if u.role ≠ "captain" ∧ u.role ≠ "club_admin" then
    ⟨Resp.redirect "teams", s, [], [("Nur Captains können Teams erstellen.", "danger")]⟩
  else
    let name := strTrim name
    if name = "" then
      ⟨Resp.redirect "teams", s, [], [("Teamname fehlt.", "danger")]⟩
    else
      let s1 := { s with
        teams := s.teams ++ [⟨s.nextTeamId, u.club_id, name, u.id⟩]
        nextTeamId := s.nextTeamId + 1 }
      match safe_get_team_id s1 u.club_id u.id name with
      | none => ⟨Resp.serverError, s1, [], []⟩
      | some team_id =>
        let s2 := { s1 with
          memberships := s1.memberships ++ [⟨u.id, team_id, 1, some now⟩] }
        ⟨Resp.redirect "team_manage", s2, [], [("Team erstellt.", "success")]⟩

/-- `team_join` (flask_app.py:303): duplicate-membership guard (any approval
state), then an unapproved membership insert — no authorization predicate,
no team-existence check, no club check — then a best-effort mail to the
team's captain when the team exists. -/
def team_join (s : DBState) (u : UserRow) (team_id : Nat) : HResult :=
  match s.memberships.find? (fun mb => mb.user_id == u.id && mb.team_id == team_id) with
  | some _ =>
    ⟨Resp.redirect "teams", s, [], [("Du hast bereits eine Anfrage / Mitgliedschaft.", "warning")]⟩
  | none =>
    let s1 := { s with memberships := s.memberships ++ [⟨u.id, team_id, 0, none⟩] }
    let capt : Option UserRow :=
      match s.teams.find? (fun t => t.id == team_id) with
      | none => none
      | some t => s.users.find? (fun x => x.id == t.captain_id)
    let mails := match capt with
      | none => []
      | some c => [Mail.mk c.email "Neue Team-Anfrage"
          ("Hallo " ++ c.first_name ++
           ",\n\nEs gibt eine neue Beitrittsanfrage in deinem Team.\n\n— Interclub Organizer")]
    ⟨Resp.redirect "teams", s1, mails, [("Beitrittsanfrage gesendet.", "success")]⟩

/-- `team_requests` (flask_app.py:376): the approve/deny decision on a join
request; approve flips the flag and stamps `now`, deny deletes the row. -/
def team_requests (s : DBState) (u : UserRow) (team_id user_id : Nat)
    (action now : String) : HResult :=
  match require_captain s u team_id with
  | none => ⟨Resp.unauthorized, s, [], []⟩
  | some _ =>
    if action = "approve" then
      let s1 := { s with memberships := s.memberships.map (fun mb =>
        if mb.user_id == user_id && mb.team_id == team_id then
          { mb with is_approved := 1, approved_at := some now } else mb) }
      let mails := match s.users.find? (fun x => x.id == user_id) with
        | none => []
        | some t => [Mail.mk t.email "Team-Anfrage bestätigt"
            ("Hallo " ++ t.first_name ++
             ",\n\nDeine Anfrage wurde akzeptiert.\n\n— Interclub Organizer")]
      ⟨Resp.redirect "team_manage", s1, mails, [("Anfrage approved.", "success")]⟩
    else
      let s1 := { s with memberships := s.memberships.filter (fun mb =>
        !(mb.user_id == user_id && mb.team_id == team_id)) }
      ⟨Resp.redirect "team_manage", s1, [], [("Anfrage denied.", "warning")]⟩

/-- The per-date INSERT loop shared by `match_create` (flask_app.py:429-435)
and `match_edit_post` (flask_app.py:661-665): one `match_dates` row per
date, the HTML `datetime-local` "T" separator replaced by a space, fresh
auto-increment ids. -/
def insertDates (st : DBState) (mid : Nat) (ds : List String) : DBState :=
  ds.foldl (fun st d =>
    { st with
      match_dates := st.match_dates ++ [⟨st.nextDateId, mid, normDate d⟩]
      nextDateId := st.nextDateId + 1 }) st

/-- `match_create` (flask_app.py:412): gate, match insert (status defaults
to `planned` per the schema), id re-fetch, date inserts for the non-empty
proposals, mail to every approved member. -/
def match_create (s : DBState) (u : UserRow) (team_id : Nat)
    (opponent location : String) (proposal_dates : List String) : HResult :=
  match require_captain s u team_id with
  | none => ⟨Resp.unauthorized, s, [], []⟩
  | some _ =>
    let opponent := strTrim opponent
    let location := strTrim location
    let s1 := { s with
      matchesTable := s.matchesTable ++ [⟨s.nextMatchId, team_id, opponent, location, "planned", none⟩]
      nextMatchId := s.nextMatchId + 1 }
    match safe_get_match_id s1 team_id opponent location with
    | none => ⟨Resp.serverError, s1, [], []⟩
    | some mid =>
      let s2 := insertDates s1 mid (proposal_dates.filter (fun d => !(d == "")))
      let members := (s.memberships.filter
        (fun mb => mb.team_id == team_id && mb.is_approved == 1)).filterMap
        (fun mb => s.users.find? (fun x => x.id == mb.user_id))
      let mails := members.map (fun m => Mail.mk m.email "Neues Match geplant"
        ("Hallo " ++ m.first_name ++
         ",\n\nEin neues Match wurde geplant. Bitte trage deine Verfügbarkeit ein.\n\n— Interclub Organizer"))
      ⟨Resp.redirect "match_detail", s2, mails,
        [("Match erstellt. Verfügbarkeiten können eingetragen werden.", "success")]⟩

/-- `match_edit_post` (flask_app.py:635): gate, unconditional
opponent/location update, then — only when at least one non-empty proposal
was supplied — the full reschedule: availability delete joined through the
match's dates, date delete, fresh date inserts, status back to `planned`
with `final_date` cleared. -/
def match_edit_post (s : DBState) (u : UserRow) (match_id : Nat)
    (opponent location : String) (proposal_dates : List String) : HResult :=
  match require_match_captain s u match_id with
  | none => ⟨Resp.unauthorized, s, [], []⟩
  | some _ =>
    let opponent := strTrim opponent
    let location := strTrim location
    let s1 := { s with matchesTable := s.matchesTable.map (fun m =>
      if m.id == match_id then { m with opponent := opponent, location := location } else m) }
    let proposed := proposal_dates.filter (fun d => !(d == ""))
    if proposed = [] then
      ⟨Resp.redirect "match_detail", s1, [], [("Match gespeichert.", "success")]⟩
    else
      let s2 := { s1 with availability := s1.availability.filter (fun a =>
        !(s1.match_dates.any (fun md => md.id == a.match_date_id && md.match_id == match_id))) }
      let s3 := { s2 with match_dates := s2.match_dates.filter (fun md => !(md.match_id == match_id)) }
      let s4 := insertDates s3 match_id proposed
      let s5 := { s4 with matchesTable := s4.matchesTable.map (fun m =>
        if m.id == match_id then { m with status := "planned", final_date := none } else m) }
      ⟨Resp.redirect "match_detail", s5, [], [("Match gespeichert.", "success")]⟩

/-- `match_availability` (flask_app.py:704): member gate, set-dedup of the
submitted ids, delete of the actor's availability joined through this
match's dates, then one insert per selected id (validated against
nothing). -/
def match_availability (s : DBState) (u : UserRow) (match_id : Nat)
    (date_ids : List Nat) : HResult :=
  match require_match_member s u match_id with
  | none => ⟨Resp.unauthorized, s, [], []⟩
  | some _ =>
    let selected := date_ids.dedup
    let s1 := { s with availability := s.availability.filter (fun a =>
      !(s.match_dates.any (fun md => md.id == a.match_date_id && md.match_id == match_id)
        && a.user_id == u.id)) }
    let inserted := selected.map (fun date_id => AvailabilityRow.mk date_id u.id 1)
    let s2 := { s1 with availability := s1.availability ++ inserted }
    ⟨Resp.redirect "match_detail", s2, [], [("Verfügbarkeit gespeichert.", "success")]⟩

/-- `match_confirm_date` (flask_app.py:734): inline lookup (match joined
with team) answering NotFound for a missing match, the captain check
answering Unauthorized, the date-ownership check answering Invalid date,
then the single UPDATE to confirmed status with the chosen final date. -/
def match_confirm_date (s : DBState) (u : UserRow) (match_id date_id : Nat) : HResult :=
  match s.matchesTable.find? (fun m => m.id == match_id) with
  | none => ⟨Resp.notFound, s, [], []⟩
  | some m =>
    match s.teams.find? (fun t => t.id == m.team_id) with
    | none => ⟨Resp.notFound, s, [], []⟩
    | some t =>
      if t.captain_id ≠ u.id ∧ u.role ≠ "club_admin" then
        ⟨Resp.unauthorized, s, [], []⟩
      else
        match s.match_dates.find? (fun md => md.id == date_id && md.match_id == match_id) with
        | none => ⟨Resp.invalidDate, s, [], []⟩
        | some d =>
          let s1 := { s with matchesTable := s.matchesTable.map (fun mm =>
            if mm.id == match_id then
              { mm with status := "confirmed", final_date := some d.proposed_datetime }
            else mm) }
          ⟨Resp.redirect "match_detail", s1, [],
            [("Datum bestätigt. Jetzt Lineup & Logistik.", "success")]⟩

/-- `match_set_lineup` (flask_app.py:771): inline lookup answering NotFound
for a missing match, captain check answering Unauthorized, then the
replace-on-write of the lineup set (all entries unconfirmed). -/
def match_set_lineup (s : DBState) (u : UserRow) (match_id : Nat)
    (player_ids : List Nat) : HResult :=
  match s.matchesTable.find? (fun m => m.id == match_id) with
  | none => ⟨Resp.notFound, s, [], []⟩
  | some m =>
    match s.teams.find? (fun t => t.id == m.team_id) with
    | none => ⟨Resp.notFound, s, [], []⟩
    | some t =>
      if t.captain_id ≠ u.id ∧ u.role ≠ "club_admin" then
        ⟨Resp.unauthorized, s, [], []⟩
      else
        let selected := player_ids.dedup
        let newLineup :=
          s.lineup.filter (fun r => !(r.match_id == match_id)) ++
          selected.map (fun uid => LineupRow.mk match_id uid 0)
        let s1 := { s with lineup := newLineup }
        ⟨Resp.redirect "match_detail", s1, [],
          [("Lineup gespeichert. Spieler bestätigen selbst.", "success")]⟩

/-- `match_confirm_lineup` (flask_app.py:803): requires an existing lineup
entry for (match, actor) — absence is Unauthorized; "yes" confirms the
entry, anything else deletes it. -/
def match_confirm_lineup (s : DBState) (u : UserRow) (match_id : Nat)
    (response : String) : HResult :=
  match s.lineup.find? (fun r => r.match_id == match_id && r.user_id == u.id) with
  | none => ⟨Resp.unauthorized, s, [], []⟩
  | some _ =>
    if response = "yes" then
      ⟨Resp.redirect "match_detail",
        { s with lineup := s.lineup.map (fun r =>
            if r.match_id == match_id && r.user_id == u.id then { r with confirmed := 1 } else r) },
        [], [("Teilnahme bestätigt.", "success")]⟩
    else
      ⟨Resp.redirect "match_detail",
        { s with lineup := s.lineup.filter (fun r =>
            !(r.match_id == match_id && r.user_id == u.id)) },
        [], [("Du kannst nicht spielen (Captain sieht es).", "warning")]⟩

/-- `match_task` (flask_app.py:837): member gate, existence check on
(match, task), then either the "already claimed" flash with no change or a
single insert recording the claimant. -/
def match_task (s : DBState) (u : UserRow) (match_id : Nat) (task : String) : HResult :=
  match require_match_member s u match_id with
  | none => ⟨Resp.unauthorized, s, [], []⟩
  | some _ =>
    match s.match_tasks.find? (fun r => r.match_id == match_id && r.task == task) with
    | some _ =>
      ⟨Resp.redirect "match_detail", s, [], [("Task ist bereits vergeben.", "warning")]⟩
    | none =>
      ⟨Resp.redirect "match_detail",
        { s with match_tasks := s.match_tasks ++ [⟨match_id, task, u.id⟩] }, [],
        [("Du übernimmst: " ++ task, "success")]⟩

/-- `match_message` (flask_app.py:869): member gate, empty-content guard,
then an append-only insert. -/
def match_message (s : DBState) (u : UserRow) (match_id : Nat) (content : String) : HResult :=
  match require_match_member s u match_id with
  | none => ⟨Resp.unauthorized, s, [], []⟩
  | some _ =>
    let content := strTrim content
    if content = "" then
      ⟨Resp.redirect "match_detail", s, [], [("Nachricht leer.", "warning")]⟩
    else
      ⟨Resp.redirect "match_detail",
        { s with match_messages := s.match_messages ++ [⟨match_id, u.id, content⟩] }, [],
        []⟩

/-- `match_detail` (flask_app.py:494): member gate, then a read-only page
render.  The page content is presentation and carries no engine state; the
embedding keeps the gate, the untouched state and the absence of mails. -/
def match_detail (s : DBState) (u : UserRow) (match_id : Nat) : HResult :=
  match require_match_member s u match_id with
  | none => ⟨Resp.unauthorized, s, [], []⟩
  | some _ => ⟨Resp.page, s, [], []⟩

/-- `_club_from_license` (auth.py:35): fold over the mapping rows keeping
the first strictly-longest matching prefix. -/
def clubStep (license_number : String) (best : Option MappingRow) (m : MappingRow) :
    Option MappingRow :=
  if strStartsWith license_number m.pref &&
     (match best with
      | none => true
      | some b => decide (b.pref.length < m.pref.length))
  then some m else best

def club_from_license (mappings : List MappingRow) (license_number : String) : Option Nat :=
  let best := mappings.foldl (clubStep license_number) none
  best.map (fun b => b.club_id)

/-- `register_user` (auth.py:45): email normalisation, duplicate guard,
club resolution from the license prefix (the Python `not club_id` is falsy
both for `None` and for a zero id), then the single user insert with role
`player`.  Returns the (ok, message) pair next to the successor state. -/
def register_user (s : DBState) (first_name last_name email license_number pw_hash : String) :
    (Bool × Option String) × DBState :=
  let email := strLower (strTrim email)
  let license_number := strTrim license_number
  match s.users.find? (fun x => x.email == email || x.license_number == license_number) with
  | some _ => ((false, some "Email oder Lizenznummer existiert bereits."), s)
  | none =>
    match club_from_license s.license_club_map license_number with
    | none =>
      ((false, some "Lizenznummer nicht bekannt: keine Club-Zuordnung (license_club_map)."), s)
    | some club_id =>
      if club_id = 0 then
        ((false, some "Lizenznummer nicht bekannt: keine Club-Zuordnung (license_club_map)."), s)
      else
        ((true, none),
          { s with
            users := s.users ++
              [⟨s.nextUserId, first_name.trim, last_name.trim, email, license_number,
                club_id, "player", pw_hash⟩]
            nextUserId := s.nextUserId + 1 })

/-! Concrete fixture data used by witnesses and counterexamples: club 1
with team 1 captained by user 9, approved member 7, outsider 8 (club 2),
match 10 of team 1 with proposed date 1, and a stray date row 2 belonging
to a match 20 of some other team. -/

def u9 : UserRow := ⟨9, "Cara", "Neun", "cara@example.org", "AB9", 1, "captain", "h9"⟩

def u7 : UserRow := ⟨7, "Pia", "Sieben", "pia@example.org", "AB7", 1, "player", "h7"⟩

def u8 : UserRow := ⟨8, "Otto", "Acht", "otto@example.org", "CD8", 2, "player", "h8"⟩

def s0 : DBState where
  users := [u9, u7, u8]
  teams := [⟨1, 1, "Alpha", 9⟩]
  memberships := [⟨9, 1, 1, some "2025-01-01 10:00"⟩, ⟨7, 1, 1, some "2025-01-02 10:00"⟩]
  matchesTable := [⟨10, 1, "Riverside", "Halle 1", "planned", none⟩]
  match_dates := [⟨1, 10, "2025-05-01 18:00"⟩, ⟨2, 20, "2025-05-02 18:00"⟩]
  availability := []
  lineup := []
  match_tasks := []
  match_messages := []
  license_club_map := [⟨"AB", 1⟩, ⟨"ABC", 2⟩]
  nextUserId := 100
  nextTeamId := 2
  nextMatchId := 11
  nextDateId := 3

/-- At most one task row per (match, task-name) pair. -/
def atMostOneTask (l : List MatchTaskRow) : Prop :=
  ∀ mid task, (l.filter (fun r => r.match_id == mid && r.task == task)).length ≤ 1

lemma atMostOneTask_append (l : List MatchTaskRow) (row : MatchTaskRow)
    (h : l.find? (fun r => r.match_id == row.match_id && r.task == row.task) = none)
    (hl : atMostOneTask l) : atMostOneTask (l ++ [row]) := by
  intro mid task
  rw [List.filter_append]
  by_cases hb : (row.match_id == mid && row.task == task) = true
  · have hb' : row.match_id = mid ∧ row.task = task := by simpa using hb
    have hfl : l.filter (fun r => r.match_id == mid && r.task == task) = [] := by
      rw [List.filter_eq_nil_iff]
      intro a ha
      have hnz := List.find?_eq_none.mp h a ha
      simp only [Bool.and_eq_true, beq_iff_eq, not_and] at hnz ⊢
      intro h1 h2
      exact hnz (by rw [h1, hb'.1]) (by rw [h2, hb'.2])
    rw [hfl, List.nil_append]
    simpa using List.length_filter_le (fun r => r.match_id == mid && r.task == task) [row]
  · rw [Bool.not_eq_true] at hb
    have hrow : ([row].filter (fun r => r.match_id == mid && r.task == task)) = [] := by
      simp [List.filter, hb]
    rw [hrow, List.append_nil]
    exact hl mid task

/-- Claim C10: for any authenticated actor and any team id with no
existing membership row of any approval state, the join request inserts
an unapproved membership row — with no authorization predicate, no check
that the team exists, and no check that the team belongs to the actor's
club (the state is arbitrary, so in particular the team may belong to a
different club or to no club at all). -/
theorem C10_join_request_unconditional_insert (s : DBState) (u : UserRow) (team_id : Nat)
    (h : s.memberships.find? (fun mb => mb.user_id == u.id && mb.team_id == team_id) = none) :
    (team_join s u team_id).st.memberships = s.memberships ++ [⟨u.id, team_id, 0, none⟩] ∧
    (team_join s u team_id).st.teams = s.teams ∧
    (team_join s u team_id).st.users = s.users ∧
    (team_join s u team_id).st.matchesTable = s.matchesTable ∧
    (team_join s u team_id).resp = Resp.redirect "teams" := by
  simp [team_join, h]

/-- Witness for C10: user 8 of club 2 files a join request against team 1
of club 1 (a team of a different club); the unapproved membership row is
created anyway. -/
theorem C10_witness :
    (team_join s0 u8 1).st.memberships =
      [⟨9, 1, 1, some "2025-01-01 10:00"⟩, ⟨7, 1, 1, some "2025-01-02 10:00"⟩,
       ⟨8, 1, 0, none⟩] :=
  (C10_join_request_unconditional_insert s0 u8 1 (by decide)).1

/-- Claim C6: with the match and its team found and the actor authorized,
confirming a date id that belongs to this match sets the match status to
`confirmed` and its final date to that date's value while leaving every
match-date row and every availability row untouched; a date id not
belonging to this match answers the invalid-date error with no state
change. -/
theorem C6_confirm_date_frame (s : DBState) (u : UserRow) (match_id date_id : Nat)
    (m : MatchRow) (t : TeamRow)
    (hm : s.matchesTable.find? (fun mm => mm.id == match_id) = some m)
    (ht : s.teams.find? (fun tt => tt.id == m.team_id) = some t)
    (hauth : t.captain_id = u.id ∨ u.role = "club_admin") :
    (∀ d : MatchDateRow,
      s.match_dates.find? (fun md => md.id == date_id && md.match_id == match_id) = some d →
      (match_confirm_date s u match_id date_id).st =
        { s with matchesTable := s.matchesTable.map (fun mm =>
            if mm.id == match_id then
              { mm with status := "confirmed", final_date := some d.proposed_datetime }
            else mm) } ∧
      (match_confirm_date s u match_id date_id).st.match_dates = s.match_dates ∧
      (match_confirm_date s u match_id date_id).st.availability = s.availability ∧
      (∀ mm ∈ (match_confirm_date s u match_id date_id).st.matchesTable,
        mm.id = match_id → mm.status = "confirmed" ∧ mm.final_date = some d.proposed_datetime)) ∧
    (s.match_dates.find? (fun md => md.id == date_id && md.match_id == match_id) = none →
      match_confirm_date s u match_id date_id = ⟨Resp.invalidDate, s, [], []⟩) := by
  have hcond : ¬ (t.captain_id ≠ u.id ∧ u.role ≠ "club_admin") := by tauto
  constructor
  · intro d hd
    simp only [match_confirm_date, hm, ht, if_neg hcond, hd]
    refine ⟨trivial, trivial, trivial, ?_⟩
    intro mm hmm hid
    rcases List.mem_map.mp hmm with ⟨mm0, _, heq⟩
    by_cases h0 : mm0.id = match_id
    · simp only [h0, beq_self_eq_true, if_pos] at heq
      rw [← heq]
      exact ⟨rfl, rfl⟩
    · rw [if_neg (by simpa using h0)] at heq
      rw [← heq] at hid
      exact absurd hid h0
  · intro hd
    simp only [match_confirm_date, hm, ht, if_neg hcond, hd]

/-- Witness for C6: the captain confirms date 1 of match 10; the match
becomes confirmed with that date and the dates and availability tables
are untouched, while date 2 (not a date of match 10) answers the
invalid-date error. -/
theorem C6_witness :
    ((match_confirm_date s0 u9 10 1).st.availability = s0.availability ∧
      (match_confirm_date s0 u9 10 1).st.match_dates = s0.match_dates) ∧
    match_confirm_date s0 u9 10 2 = ⟨Resp.invalidDate, s0, [], []⟩ := by
  constructor
  · have h := C6_confirm_date_frame s0 u9 10 1 ⟨10, 1, "Riverside", "Halle 1", "planned", none⟩
      ⟨1, 1, "Alpha", 9⟩ (by decide) (by decide) (Or.inl rfl)
    have h1 := h.1 ⟨1, 10, "2025-05-01 18:00"⟩ (by decide)
    exact ⟨h1.2.2.1, h1.2.1⟩
  · have h := C6_confirm_date_frame s0 u9 10 2 ⟨10, 1, "Riverside", "Halle 1", "planned", none⟩
      ⟨1, 1, "Alpha", 9⟩ (by decide) (by decide) (Or.inl rfl)
    exact h.2 (by decide)

/-- Claim C3: with the member gate passed, claiming a task that already
has a row for (match, task-name) answers the already-claimed flash and
changes nothing; otherwise exactly the one row (match, task, actor) is
appended.  The at-most-one-row-per-pair invariant is preserved, and no
existing row is ever modified or removed, so the first claimant stays
recorded. -/
theorem C3_claim_task_first_writer (s : DBState) (u : UserRow) (match_id : Nat)
    (task : String) (m : MatchRow)
    (hgate : require_match_member s u match_id = some m) :
    (∀ row : MatchTaskRow,
      s.match_tasks.find? (fun r => r.match_id == match_id && r.task == task) = some row →
      (match_task s u match_id task).st = s ∧
      (match_task s u match_id task).flashes = [("Task ist bereits vergeben.", "warning")]) ∧
    (s.match_tasks.find? (fun r => r.match_id == match_id && r.task == task) = none →
      (match_task s u match_id task).st =
        { s with match_tasks := s.match_tasks ++ [⟨match_id, task, u.id⟩] }) ∧
    (atMostOneTask s.match_tasks → atMostOneTask (match_task s u match_id task).st.match_tasks) := by
  refine ⟨?_, ?_, ?_⟩
  · intro row hrow
    simp [match_task, hgate, hrow]
  · intro hnone
    simp only [match_task, hgate, hnone]
  · intro hone
    rcases hfind : s.match_tasks.find? (fun r => r.match_id == match_id && r.task == task) with
      _ | row
    · simp only [match_task, hgate, hfind]
      exact atMostOneTask_append _ _ hfind hone
    · simp only [match_task, hgate, hfind]
      exact hone

/-- Witness for C3: member 7 claims the task "Balls" on match 10 of the
fixture (no prior claim): exactly the one row is appended. -/
theorem C3_witness :
    (match_task s0 u7 10 "Balls").st =
      { s0 with match_tasks := [⟨10, "Balls", 7⟩] } := by
  have h := C3_claim_task_first_writer s0 u7 10 "Balls"
    ⟨10, 1, "Riverside", "Halle 1", "planned", none⟩ (by decide)
  exact h.2.1 (by decide)

lemma require_match_member_avail (s : DBState) (v : List AvailabilityRow)
    (u : UserRow) (mid : Nat) :
    require_match_member { s with availability := v } u mid = require_match_member s u mid := rfl

lemma filter_self_idem {α : Type} (p : α → Bool) (l : List α) :
    (l.filter p).filter p = l.filter p := by
  rw [List.filter_filter]
  simp [Bool.and_self]

/-- Counterexample to claim C7 as stated: member 7 submits availability for
match 10 selecting date id 2 — a date row of a different match — twice.
The delete step only removes rows joined through match 10's dates, so the
foreign row survives the second delete and is inserted again: two
applications leave two copies where one application left one. -/
theorem C7_counterexample :
    (match_availability (match_availability s0 u7 10 [2]).st u7 10 [2]).st.availability ≠
      (match_availability s0 u7 10 [2]).st.availability := by decide

/-- Claim C7 as amended: `submitAvailability` is idempotent under
repetition with the same selection provided every selected id references
a MatchDate row of this match; and an empty selection clears the actor's
availability for the match entirely and answers the normal success
redirect, not an error. -/
theorem C7_availability_idem_amended (s : DBState) (u : UserRow) (match_id : Nat)
    (date_ids : List Nat)
    (hsel : ∀ d ∈ date_ids, ∃ md ∈ s.match_dates, md.id = d ∧ md.match_id = match_id) :
    (match_availability (match_availability s u match_id date_ids).st u match_id date_ids).st =
      (match_availability s u match_id date_ids).st ∧
    (∀ m : MatchRow, require_match_member s u match_id = some m →
      (match_availability s u match_id []).st =
        { s with availability := s.availability.filter (fun a =>
          !(s.match_dates.any (fun md => md.id == a.match_date_id && md.match_id == match_id)
            && a.user_id == u.id)) } ∧
      (match_availability s u match_id []).resp = Resp.redirect "match_detail") := by
  constructor
  · rcases hg : require_match_member s u match_id with _ | m
    · simp [match_availability, hg]
    · have hins : ((date_ids.dedup.map (fun d => AvailabilityRow.mk d u.id 1)).filter
          (fun a => !(s.match_dates.any
            (fun md => md.id == a.match_date_id && md.match_id == match_id)
            && a.user_id == u.id))) = [] := by
        rw [List.filter_eq_nil_iff]
        intro a ha
        rcases List.mem_map.mp ha with ⟨d, hd, rfl⟩
        rcases hsel d (List.mem_dedup.mp hd) with ⟨md, hmd, hid, hmid⟩
        simp only [Bool.not_eq_true', Bool.not_eq_false, Bool.and_eq_true, beq_self_eq_true,
          and_true, List.any_eq_true]
        exact ⟨md, hmd, by simp [hid, hmid]⟩
      simp only [match_availability, hg, require_match_member_avail]
      simp only [List.filter_append, filter_self_idem, hins, List.append_nil]
  · intro m hg
    simp [match_availability, hg]

/-- Witness for the amended C7: both selected ids are dates of the match
in the concrete fixture extended with a second date of match 10. -/
theorem C7_witness :
    (match_availability (match_availability s0 u7 10 [1]).st u7 10 [1]).st =
      (match_availability s0 u7 10 [1]).st :=
  (C7_availability_idem_amended s0 u7 10 [1] (by decide)).1

lemma safe_get_fold_lt (A : List TeamRow) (n : Nat) (hA : ∀ t ∈ A, t.id < n) :
    ∀ acc : Option Nat, (∀ b, acc = some b → b < n) →
      ∀ c, A.foldl
        (fun acc t => match acc with | none => some t.id | some b => some (max b t.id))
        acc = some c → c < n := by
  induction A with
  | nil =>
    intro acc hacc c hc
    exact hacc c hc
  | cons t A ih =>
    intro acc hacc c hc
    rw [List.foldl_cons] at hc
    refine ih (fun t' ht' => hA t' (List.mem_cons_of_mem _ ht')) _ ?_ c hc
    intro b hb
    rcases acc with _ | b0
    · simp only [Option.some.injEq] at hb
      subst hb
      exact hA t (List.mem_cons_self _ _)
    · simp only [Option.some.injEq] at hb
      subst hb
      exact max_lt (hacc b0 rfl) (hA t (List.mem_cons_self _ _))

lemma safe_get_foldl_last (A : List TeamRow) (t : TeamRow) (n : Nat)
    (hA : ∀ x ∈ A, x.id < n) (ht : t.id = n) :
    (A ++ [t]).foldl
      (fun acc t => match acc with | none => some t.id | some b => some (max b t.id))
      none = some n := by
  rw [List.foldl_append, List.foldl_cons, List.foldl_nil]
  rcases hacc : A.foldl
      (fun acc t => match acc with | none => some t.id | some b => some (max b t.id))
      none with _ | b
  · rw [hacc]
    simp [ht]
  · have hb : b < n :=
      safe_get_fold_lt A n hA none (by intro b hb; cases hb) b hacc
    rw [hacc]
    simp [ht, Nat.max_eq_right (Nat.le_of_lt hb)]

lemma safe_get_team_id_fresh (s : DBState) (u : UserRow) (nm : String)
    (hfresh : ∀ t ∈ s.teams, t.id < s.nextTeamId) :
    safe_get_team_id
      { s with teams := s.teams ++ [⟨s.nextTeamId, u.club_id, nm, u.id⟩],
               nextTeamId := s.nextTeamId + 1 }
      u.club_id u.id nm = some s.nextTeamId := by
  unfold safe_get_team_id
  simp only [List.filter_append, List.filter_cons, List.filter_nil, beq_self_eq_true,
    Bool.and_self, Bool.true_and, Bool.and_true, if_true, reduceIte]
  exact safe_get_foldl_last _ _ _
    (fun x hx => hfresh x (List.mem_of_mem_filter hx)) rfl

/-- Counterexample to claim C5 as stated: the handler rejects any actor
whose role is `player` outright and contains no role update at all, so a
player is never promoted to captain by team creation — the attempt leaves
the state (role included) unchanged. -/
theorem C5_counterexample :
    (team_create_route_post s0 u7 "Beta" "2025-01-03 10:00").st = s0 ∧
    ((team_create_route_post s0 u7 "Beta" "2025-01-03 10:00").st.users.find?
      (fun x => x.id == 7)).map (fun x => x.role) = some "player" ∧
    some "player" ≠ some "captain" := by decide

/-- Claim C5 as amended: team creation never modifies the users table (so
no role is ever promoted or changed, and a second creation by the same
captain trivially leaves the role alone); an actor whose role is `player`
is rejected with no state change; a successful creation — possible only
for role captain or club_admin with a non-empty trimmed name — creates
exactly the team row and exactly one approved membership row for the
creator stamped with the approval time. -/
theorem C5_create_team_amended (s : DBState) (u : UserRow) (name now : String)
    (hfresh : ∀ t ∈ s.teams, t.id < s.nextTeamId) :
    (team_create_route_post s u name now).st.users = s.users ∧
    ((u.role = "captain" ∨ u.role = "club_admin") → strTrim name ≠ "" →
      (team_create_route_post s u name now).st.teams =
        s.teams ++ [⟨s.nextTeamId, u.club_id, strTrim name, u.id⟩] ∧
      (team_create_route_post s u name now).st.memberships =
        s.memberships ++ [⟨u.id, s.nextTeamId, 1, some now⟩]) ∧
    ((u.role ≠ "captain" ∧ u.role ≠ "club_admin") →
      (team_create_route_post s u name now).st = s) := by
  refine ⟨?_, ?_, ?_⟩
  · by_cases h1 : u.role ≠ "captain" ∧ u.role ≠ "club_admin"
    · simp only [team_create_route_post, if_pos h1]
    · simp only [team_create_route_post, if_neg h1]
      by_cases h2 : strTrim name = ""
      · simp only [if_pos h2]
      · simp only [if_neg h2]
        split <;> rfl
  · intro hrole hname
    have hcond : ¬ (u.role ≠ "captain" ∧ u.role ≠ "club_admin") := by tauto
    simp only [team_create_route_post, if_neg hcond, if_neg hname,
      safe_get_team_id_fresh s u (strTrim name) hfresh]
    exact ⟨by trivial, by trivial⟩
  · intro hrole'
    simp only [team_create_route_post, if_pos hrole']

/-- Witness for the amended C5: captain 9 creates team "Beta" in the
fixture; the team row and the single approved membership row appear. -/
theorem C5_witness :
    (team_create_route_post s0 u9 "Beta" "2025-01-03 10:00").st.teams =
      s0.teams ++ [⟨s0.nextTeamId, u9.club_id, strTrim "Beta", u9.id⟩] ∧
    (team_create_route_post s0 u9 "Beta" "2025-01-03 10:00").st.memberships =
      s0.memberships ++ [⟨u9.id, s0.nextTeamId, 1, some "2025-01-03 10:00"⟩] :=
  (C5_create_team_amended s0 u9 "Beta" "2025-01-03 10:00"
    (by decide)).2.1 (Or.inl rfl) (by decide)

/-- Specification of the rows produced by the date-insertion loop: ids
count up from `n`, all rows belong to `mid`, values are normalised. -/
def mkNewDates (n mid : Nat) : List String → List MatchDateRow
  | [] => []
  | d :: ds => ⟨n, mid, normDate d⟩ :: mkNewDates (n + 1) mid ds

lemma insertDates_cons (st : DBState) (mid : Nat) (d : String) (ds : List String) :
    insertDates st mid (d :: ds) =
      insertDates
        { st with match_dates := st.match_dates ++ [⟨st.nextDateId, mid, normDate d⟩],
                  nextDateId := st.nextDateId + 1 } mid ds := rfl

lemma insertDates_match_dates (mid : Nat) (ds : List String) :
    ∀ st : DBState,
      (insertDates st mid ds).match_dates =
        st.match_dates ++ mkNewDates st.nextDateId mid ds := by
  induction ds with
  | nil => intro st; simp [insertDates, mkNewDates]
  | cons d ds ih =>
    intro st
    rw [insertDates_cons, ih, mkNewDates]
    simp [List.append_assoc]

lemma insertDates_availability (mid : Nat) (ds : List String) :
    ∀ st : DBState, (insertDates st mid ds).availability = st.availability := by
  induction ds with
  | nil => intro st; rfl
  | cons d ds ih =>
    intro st
    rw [insertDates_cons]
    exact ih _

lemma insertDates_matchesTable (mid : Nat) (ds : List String) :
    ∀ st : DBState, (insertDates st mid ds).matchesTable = st.matchesTable := by
  induction ds with
  | nil => intro st; rfl
  | cons d ds ih =>
    intro st
    rw [insertDates_cons]
    exact ih _

lemma filter_of_filter_not {α : Type} (p : α → Bool) (l : List α) :
    (l.filter (fun a => !(p a))).filter p = [] := by
  rw [List.filter_eq_nil_iff]
  intro a ha
  have h := (List.mem_filter.mp ha).2
  simp only [Bool.not_eq_true'] at h
  simp [h]

lemma mkNewDates_map_val (mid : Nat) (ds : List String) :
    ∀ n : Nat, (mkNewDates n mid ds).map (fun md => md.proposed_datetime) = ds.map normDate := by
  induction ds with
  | nil => intro n; rfl
  | cons d ds ih => intro n; simp [mkNewDates, ih]

lemma mkNewDates_mem (mid : Nat) (ds : List String) :
    ∀ n : Nat, ∀ md ∈ mkNewDates n mid ds, md.match_id = mid ∧ n ≤ md.id := by
  induction ds with
  | nil => intro n md h; cases h
  | cons d ds ih =>
    intro n md h
    rcases h with _ | ⟨_, h⟩
    · exact ⟨rfl, Nat.le_refl n⟩
    · rcases ih (n + 1) md h with ⟨h1, h2⟩
      exact ⟨h1, Nat.le_of_succ_le h2⟩

lemma mkNewDates_filter_self (mid : Nat) (ds : List String) (n : Nat) :
    (mkNewDates n mid ds).filter (fun md => md.match_id == mid) = mkNewDates n mid ds := by
  rw [List.filter_eq_self]
  intro md hmd
  simp [(mkNewDates_mem mid ds n md hmd).1]

lemma mem_map_ite {α : Type} (l : List α) (p : α → Bool) (f : α → α) (x : α)
    (hx : x ∈ l.map (fun a => if p a then f a else a)) :
    (∃ a, a ∈ l ∧ p a = true ∧ x = f a) ∨ (x ∈ l ∧ p x = false) := by
  rcases List.mem_map.mp hx with ⟨a, ha, heq⟩
  by_cases hp : p a = true
  · exact Or.inl ⟨a, ha, hp, by rw [← heq, if_pos hp]⟩
  · rw [if_neg hp] at heq
    subst heq
    exact Or.inr ⟨ha, by rwa [Bool.not_eq_true] at hp⟩

/-- Claim C2: with the gate passed and the auto-increment counter ahead of
every stored date id and every referenced date id, editing a match always
rewrites opponent and location (trimmed), and — when the filtered list of
submitted proposal dates is non-empty — reverts the match to `planned`
with a cleared final date, leaves no availability row referencing any
current date of the match, and makes the match's date set exactly the
submitted dates (normalised from the `datetime-local` form encoding), in
order. -/
theorem C2_edit_reschedule (s : DBState) (u : UserRow) (match_id : Nat)
    (opponent location : String) (proposal_dates : List String) (m : MatchRow)
    (hgate : require_match_captain s u match_id = some m)
    (hfreshA : ∀ a ∈ s.availability, a.match_date_id < s.nextDateId) :
    (∀ mm ∈ (match_edit_post s u match_id opponent location proposal_dates).st.matchesTable,
      mm.id = match_id →
        mm.opponent = strTrim opponent ∧ mm.location = strTrim location) ∧
    (proposal_dates.filter (fun d => !(d == "")) ≠ [] →
      (∀ mm ∈ (match_edit_post s u match_id opponent location proposal_dates).st.matchesTable,
        mm.id = match_id → mm.status = "planned" ∧ mm.final_date = none) ∧
      ((match_edit_post s u match_id opponent location proposal_dates).st.match_dates.filter
          (fun md => md.match_id == match_id)).map (fun md => md.proposed_datetime) =
        (proposal_dates.filter (fun d => !(d == ""))).map normDate ∧
      (∀ a ∈ (match_edit_post s u match_id opponent location proposal_dates).st.availability,
        ∀ md ∈ (match_edit_post s u match_id opponent location proposal_dates).st.match_dates,
          md.match_id = match_id → a.match_date_id ≠ md.id)) := by
  constructor
  · by_cases hp : proposal_dates.filter (fun d => !(d == "")) = []
    · intro mm hmm hid
      simp only [match_edit_post, hgate, if_pos hp] at hmm
      rcases mem_map_ite _ _ _ _ hmm with ⟨a, _, hpa, rfl⟩ | ⟨_, hfalse⟩
      · exact ⟨rfl, rfl⟩
      · simp [hid] at hfalse
    · intro mm hmm hid
      simp only [match_edit_post, hgate, if_neg hp, insertDates_matchesTable] at hmm
      rcases mem_map_ite _ _ _ _ hmm with ⟨a, ha, hpa, rfl⟩ | ⟨_, hfalse⟩
      · rcases mem_map_ite _ _ _ _ ha with ⟨b, _, _, rfl⟩ | ⟨_, hfalse2⟩
        · exact ⟨rfl, rfl⟩
        · rw [hpa] at hfalse2
          cases hfalse2
      · simp [hid] at hfalse
  · intro hp
    refine ⟨?_, ?_, ?_⟩
    · intro mm hmm hid
      simp only [match_edit_post, hgate, if_neg hp, insertDates_matchesTable] at hmm
      rcases mem_map_ite _ _ _ _ hmm with ⟨a, _, _, rfl⟩ | ⟨_, hfalse⟩
      · exact ⟨rfl, rfl⟩
      · simp [hid] at hfalse
    · simp only [match_edit_post, hgate, if_neg hp, insertDates_match_dates]
      rw [List.filter_append, filter_of_filter_not, mkNewDates_filter_self,
        List.nil_append, mkNewDates_map_val]
    · intro a ha md hmd hmid
      simp only [match_edit_post, hgate, if_neg hp, insertDates_match_dates,
        insertDates_availability] at ha hmd
      have haS : a ∈ s.availability := List.mem_of_mem_filter ha
      rcases List.mem_append.mp hmd with hmd1 | hmd2
      · have h := (List.mem_filter.mp hmd1).2
        simp only [Bool.not_eq_true', beq_eq_false_iff_ne] at h
        exact absurd hmid h
      · have h := (mkNewDates_mem _ _ _ md hmd2).2
        have ha' := hfreshA a haS
        omega

/-- Witness for C2: the captain reschedules match 10 with one new date;
the match's date set becomes exactly the submitted date (normalised). -/
theorem C2_witness :
    ((match_edit_post s0 u9 10 "Neu" "Dort" ["2025-06-01T10:00"]).st.match_dates.filter
        (fun md => md.match_id == 10)).map (fun md => md.proposed_datetime) =
      (["2025-06-01T10:00"].filter (fun d => !(d == ""))).map normDate :=
  ((C2_edit_reschedule s0 u9 10 "Neu" "Dort" ["2025-06-01T10:00"]
      ⟨10, 1, "Riverside", "Halle 1", "planned", none⟩ (by decide) (by decide)).2
    (by decide)).2.1

/-- Specification-side resolver, following the spec's words: the matching
mapping of maximal prefix length, ties resolved in favour of the
first-encountered mapping (the head beats an equally long best of the
tail). -/
def resolveSpec (lic : String) : List MappingRow → Option MappingRow
  | [] => none
  | m :: rest =>
    let r := resolveSpec lic rest
    if strStartsWith lic m.pref &&
       (match r with
        | none => true
        | some b => decide (b.pref.length ≤ m.pref.length))
    then some m else r

/-- Combine an earlier best candidate with the best of the remaining list:
a later candidate replaces the earlier one only when strictly longer. -/
def pickLonger (a r : Option MappingRow) : Option MappingRow :=
  match a, r with
  | none, r => r
  | some a, none => some a
  | some a, some b => if a.pref.length < b.pref.length then some b else some a

lemma club_foldl_eq (lic : String) :
    ∀ (maps : List MappingRow) (acc : Option MappingRow),
      maps.foldl (clubStep lic) acc = pickLonger acc (resolveSpec lic maps) := by
  intro maps
  induction maps with
  | nil =>
    intro acc
    rcases acc with _ | a <;> rfl
  | cons m rest ih =>
    intro acc
    rw [List.foldl_cons, ih]
    cases hs : strStartsWith lic m.pref with
    | false =>
      have h1 : clubStep lic acc m = acc := by
        simp [clubStep, hs]
      have h2 : resolveSpec lic (m :: rest) = resolveSpec lic rest := by
        simp [resolveSpec, hs]
      rw [h1, h2]
    | true =>
      rcases acc with _ | a <;> rcases hr : resolveSpec lic rest with _ | b
      · simp [clubStep, resolveSpec, pickLonger, hs, hr]
      · by_cases hl : b.pref.length ≤ m.pref.length
        · have e1 : resolveSpec lic (m :: rest) = some m := by
            simp [resolveSpec, hs, hr, hl]
          rw [e1]
          simp [clubStep, pickLonger, hs, Nat.not_lt.mpr hl]
        · have e1 : resolveSpec lic (m :: rest) = some b := by
            simp [resolveSpec, hs, hr, hl]
          rw [e1]
          simp [clubStep, pickLonger, hs, Nat.lt_of_not_le hl]
      · have e1 : resolveSpec lic (m :: rest) = some m := by
          simp [resolveSpec, hs, hr]
        rw [e1]
        by_cases ha : a.pref.length < m.pref.length <;>
          simp [clubStep, pickLonger, hs, ha]
      · by_cases hl : b.pref.length ≤ m.pref.length <;>
          by_cases ha : a.pref.length < m.pref.length
        · have e1 : resolveSpec lic (m :: rest) = some m := by
            simp [resolveSpec, hs, hr, hl]
          rw [e1]
          simp [clubStep, pickLonger, hs, ha, Nat.not_lt.mpr hl]
        · have e1 : resolveSpec lic (m :: rest) = some m := by
            simp [resolveSpec, hs, hr, hl]
          rw [e1]
          simp [clubStep, pickLonger, hs, ha,
            show ¬ (a.pref.length < b.pref.length) by omega]
        · have e1 : resolveSpec lic (m :: rest) = some b := by
            simp [resolveSpec, hs, hr, hl]
          rw [e1]
          simp [clubStep, pickLonger, hs, ha, Nat.lt_of_not_le hl,
            show a.pref.length < b.pref.length by omega]
        · have e1 : resolveSpec lic (m :: rest) = some b := by
            simp [resolveSpec, hs, hr, hl]
          rw [e1]
          simp [clubStep, pickLonger, hs, ha]

lemma resolveSpec_none_iff (lic : String) (maps : List MappingRow) :
    resolveSpec lic maps = none ↔ ∀ m ∈ maps, strStartsWith lic m.pref = false := by
  induction maps with
  | nil => simp [resolveSpec]
  | cons m rest ih =>
    cases hs : strStartsWith lic m.pref with
    | false =>
      have h2 : resolveSpec lic (m :: rest) = resolveSpec lic rest := by
        simp [resolveSpec, hs]
      rw [h2, ih]
      constructor
      · intro h x hx
        rcases hx with _ | ⟨_, hx⟩
        · exact hs
        · exact h x hx
      · intro h x hx
        exact h x (List.mem_cons_of_mem _ hx)
    | true =>
      constructor
      · intro h
        exfalso
        rcases hr : resolveSpec lic rest with _ | b <;>
          simp [resolveSpec, hs, hr] at h
        revert h
        split_ifs <;> simp
      · intro h
        exact absurd (h m (List.mem_cons_self _ _)) (by simp [hs])

lemma resolveSpec_some (lic : String) (maps : List MappingRow) (b : MappingRow)
    (h : resolveSpec lic maps = some b) :
    b ∈ maps ∧ strStartsWith lic b.pref = true ∧
    ∀ m ∈ maps, strStartsWith lic m.pref = true → m.pref.length ≤ b.pref.length := by
  induction maps generalizing b with
  | nil => cases h
  | cons m rest ih =>
    cases hs : strStartsWith lic m.pref with
    | false =>
      have h2 : resolveSpec lic (m :: rest) = resolveSpec lic rest := by
        simp [resolveSpec, hs]
      rw [h2] at h
      rcases ih b h with ⟨h1, h2', h3⟩
      refine ⟨List.mem_cons_of_mem _ h1, h2', ?_⟩
      intro x hx hsw
      rcases hx with _ | ⟨_, hx⟩
      · rw [hs] at hsw
        cases hsw
      · exact h3 x hx hsw
    | true =>
      rcases hr : resolveSpec lic rest with _ | c
      · have hb : b = m := by
          simp [resolveSpec, hs, hr] at h
          exact h.symm
        subst hb
        refine ⟨List.mem_cons_self _ _, hs, ?_⟩
        intro x hx hsw
        rcases hx with _ | ⟨_, hx⟩
        · exact Nat.le_refl _
        · exact absurd hsw (by simp [(resolveSpec_none_iff lic rest).mp hr x hx])
      · rcases ih c hr with ⟨hc1, hc2, hc3⟩
        by_cases hlen : c.pref.length ≤ m.pref.length
        · have hb : b = m := by
            simp only [resolveSpec, hs, hr, Bool.true_and, decide_eq_true_eq] at h
            rw [if_pos hlen] at h
            exact (Option.some.injEq _ _).mp h.symm ▸ rfl
          subst hb
          refine ⟨List.mem_cons_self _ _, hs, ?_⟩
          intro x hx hsw
          rcases hx with _ | ⟨_, hx⟩
          · exact Nat.le_refl _
          · exact Nat.le_trans (hc3 x hx hsw) hlen
        · have hb : b = c := by
            simp only [resolveSpec, hs, hr, Bool.true_and, decide_eq_true_eq] at h
            rw [if_neg hlen] at h
            exact ((Option.some.injEq _ _).mp h).symm
          subst hb
          refine ⟨List.mem_cons_of_mem _ hc1, hc2, ?_⟩
          intro x hx hsw
          rcases hx with _ | ⟨_, hx⟩
          · omega
          · exact hc3 x hx hsw

/-- Claim C4: the code's fold equals the spec-side resolver (matching
mapping of maximal prefix length, first-encountered on ties); resolution
answers nothing exactly when no mapping prefix is a prefix of the
license; and with no duplicate user and no matching mapping, registration
returns the distinct unmapped-license error with the state unchanged —
no user row is created and no club is assigned by default. -/
theorem C4_license_resolution (maps : List MappingRow) (lic : String) (s : DBState)
    (fn ln em pw : String) :
    club_from_license maps lic = (resolveSpec lic maps).map (fun b => b.club_id) ∧
    (resolveSpec lic maps = none ↔ ∀ m ∈ maps, strStartsWith lic m.pref = false) ∧
    (∀ b, resolveSpec lic maps = some b →
      b ∈ maps ∧ strStartsWith lic b.pref = true ∧
      ∀ m ∈ maps, strStartsWith lic m.pref = true → m.pref.length ≤ b.pref.length) ∧
    (s.users.find? (fun x => x.email == strLower (strTrim em)
        || x.license_number == strTrim lic) = none →
      club_from_license s.license_club_map (strTrim lic) = none →
      register_user s fn ln em lic pw =
        ((false, some "Lizenznummer nicht bekannt: keine Club-Zuordnung (license_club_map)."), s)) ∧
    ("Lizenznummer nicht bekannt: keine Club-Zuordnung (license_club_map)." ≠
      "Email oder Lizenznummer existiert bereits.") := by
  refine ⟨?_, resolveSpec_none_iff lic maps, fun b h => resolveSpec_some lic maps b h, ?_, ?_⟩
  · rw [club_from_license, club_foldl_eq]
    rfl
  · intro hdup hclub
    simp only [register_user, hdup, hclub]
  · decide

/-- Witness for C4: on the fixture's mapping table, the license "ABC9"
matches both the prefix "AB" and the longer prefix "ABC"; the resolver
delivers the longer one, every matching prefix has length at most 3, and
registering the unmatched license "ZZ9" fails with the unmapped-license
error and an unchanged state. -/
theorem C4_witness :
    club_from_license s0.license_club_map "ABC9" =
      (resolveSpec "ABC9" s0.license_club_map).map (fun b => b.club_id) ∧
    (∀ m ∈ s0.license_club_map, strStartsWith "ABC9" m.pref = true →
      m.pref.length ≤ 3) ∧
    register_user s0 "Neu" "Nutzer" "new@example.org" "ZZ9" "pw" =
      ((false, some "Lizenznummer nicht bekannt: keine Club-Zuordnung (license_club_map)."), s0) := by
  refine ⟨(C4_license_resolution s0.license_club_map "ABC9" s0 "Neu" "Nutzer"
    "new@example.org" "pw").1, ?_, ?_⟩
  · have h3 := (C4_license_resolution s0.license_club_map "ABC9" s0 "Neu" "Nutzer"
      "new@example.org" "pw").2.2.1 ⟨"ABC", 2⟩ (by decide)
    exact fun m hm hsw => h3.2.2 m hm hsw
  · exact (C4_license_resolution s0.license_club_map "ZZ9" s0 "Neu" "Nutzer"
      "new@example.org" "pw").2.2.2.1 (by decide) (by decide)

lemma foldl_table_sub {β : Type} (proj : DBState → List β)
    (hstep : ∀ (st : DBState) (m : Nat) (r : β), r ∈ proj (deleteMatchRows st m) → r ∈ proj st) :
    ∀ (mids : List Nat) (st : DBState) (r : β),
      r ∈ proj (mids.foldl deleteMatchRows st) → r ∈ proj st := by
  intro mids
  induction mids with
  | nil => intro st r hr; exact hr
  | cons m mids ih =>
    intro st r hr
    rw [List.foldl_cons] at hr
    exact hstep st m r (ih _ r hr)

lemma foldl_table_none {β : Type} (proj : DBState → List β) (key : β → Nat)
    (hsub : ∀ (st : DBState) (m : Nat) (r : β), r ∈ proj (deleteMatchRows st m) → r ∈ proj st)
    (hnone : ∀ (st : DBState) (m : Nat) (r : β), r ∈ proj (deleteMatchRows st m) → key r ≠ m) :
    ∀ (mids : List Nat) (st : DBState) (mid : Nat), mid ∈ mids →
      ∀ r ∈ proj (mids.foldl deleteMatchRows st), key r ≠ mid := by
  intro mids
  induction mids with
  | nil => intro st mid hmem; cases hmem
  | cons m mids ih =>
    intro st mid hmem r hr
    rw [List.foldl_cons] at hr
    by_cases heq : mid = m
    · subst heq
      exact hnone st mid r (foldl_table_sub proj hsub mids _ r hr)
    · have hmem' : mid ∈ mids := by
        rcases List.mem_cons.mp hmem with h | h
        · exact absurd h heq
        · exact h
      exact ih _ mid hmem' r hr

lemma dmr_avail_sub (st : DBState) (m : Nat) (a : AvailabilityRow)
    (h : a ∈ (deleteMatchRows st m).availability) : a ∈ st.availability :=
  (List.mem_filter.mp h).1

lemma foldl_avail_none :
    ∀ (mids : List Nat) (st : DBState) (mid : Nat), mid ∈ mids →
      ∀ md ∈ st.match_dates, md.match_id = mid →
        ∀ a ∈ (mids.foldl deleteMatchRows st).availability, a.match_date_id ≠ md.id := by
  intro mids
  induction mids with
  | nil => intro st mid hmem; cases hmem
  | cons m mids ih =>
    intro st mid hmem md hmd hmdid a ha
    rw [List.foldl_cons] at ha
    by_cases heq : mid = m
    · subst heq
      have ha' : a ∈ (deleteMatchRows st mid).availability :=
        foldl_table_sub (fun s => s.availability) dmr_avail_sub mids _ a ha
      have h2 := (List.mem_filter.mp ha').2
      intro hcontra
      rw [Bool.not_eq_true', List.any_eq_false] at h2
      have := h2 md hmd
      simp [hcontra, hmdid] at this
    · have hmem' : mid ∈ mids := by
        rcases List.mem_cons.mp hmem with h | h
        · exact absurd h heq
        · exact h
      have hmd' : md ∈ (deleteMatchRows st m).match_dates := by
        refine List.mem_filter.mpr ⟨hmd, ?_⟩
        simp [hmdid, heq]
      exact ih _ mid hmem' md hmd' hmdid a ha

/-- Claim C1: a completed match deletion leaves no message, task, lineup
entry or date row carrying the match id, no match row with that id, and
no availability row referencing any of the match's (pre-state) dates; a
completed team deletion runs that procedure for every match the team
owns and additionally leaves no membership row, no team row and no match
row carrying the team id. -/
theorem C1_cascade_delete (s : DBState) (u : UserRow) (mid tid : Nat) :
    (∀ m : MatchRow, require_match_captain s u mid = some m →
      (∀ x ∈ (match_delete s u mid).st.match_messages, x.match_id ≠ mid) ∧
      (∀ x ∈ (match_delete s u mid).st.match_tasks, x.match_id ≠ mid) ∧
      (∀ x ∈ (match_delete s u mid).st.lineup, x.match_id ≠ mid) ∧
      (∀ md ∈ (match_delete s u mid).st.match_dates, md.match_id ≠ mid) ∧
      (∀ mm ∈ (match_delete s u mid).st.matchesTable, mm.id ≠ mid) ∧
      (∀ md ∈ s.match_dates, md.match_id = mid →
        ∀ a ∈ (match_delete s u mid).st.availability, a.match_date_id ≠ md.id)) ∧
    (∀ t : TeamRow, require_captain s u tid = some t →
      (∀ mb ∈ (team_delete s u tid).st.memberships, mb.team_id ≠ tid) ∧
      (∀ tt ∈ (team_delete s u tid).st.teams, tt.id ≠ tid) ∧
      (∀ mm ∈ (team_delete s u tid).st.matchesTable, mm.team_id ≠ tid) ∧
      (∀ mid' : Nat, (∃ mm ∈ s.matchesTable, mm.id = mid' ∧ mm.team_id = tid) →
        (∀ x ∈ (team_delete s u tid).st.match_messages, x.match_id ≠ mid') ∧
        (∀ x ∈ (team_delete s u tid).st.match_tasks, x.match_id ≠ mid') ∧
        (∀ x ∈ (team_delete s u tid).st.lineup, x.match_id ≠ mid') ∧
        (∀ md ∈ (team_delete s u tid).st.match_dates, md.match_id ≠ mid') ∧
        (∀ mm ∈ (team_delete s u tid).st.matchesTable, mm.id ≠ mid') ∧
        (∀ md ∈ s.match_dates, md.match_id = mid' →
          ∀ a ∈ (team_delete s u tid).st.availability, a.match_date_id ≠ md.id))) := by
  constructor
  · intro m hgate
    simp only [match_delete, hgate]
    refine ⟨?_, ?_, ?_, ?_, ?_, ?_⟩
    · intro x hx
      have := (List.mem_filter.mp hx).2
      simpa using this
    · intro x hx
      have := (List.mem_filter.mp hx).2
      simpa using this
    · intro x hx
      have := (List.mem_filter.mp hx).2
      simpa using this
    · intro md hmd
      have := (List.mem_filter.mp hmd).2
      simpa using this
    · intro mm hmm
      have := (List.mem_filter.mp hmm).2
      simpa using this
    · intro md hmd hmdid a ha
      have h2 := (List.mem_filter.mp ha).2
      intro hcontra
      rw [Bool.not_eq_true', List.any_eq_false] at h2
      have := h2 md hmd
      simp [hcontra, hmdid] at this
  · intro t hgate
    have hmids : ∀ mm ∈ s.matchesTable, mm.team_id = tid →
        mm.id ∈ (s.matchesTable.filter (fun m => m.team_id == tid)).map (fun m => m.id) := by
      intro mm hmm hteam
      exact List.mem_map.mpr ⟨mm, List.mem_filter.mpr ⟨hmm, by simp [hteam]⟩, rfl⟩
    simp only [team_delete, hgate]
    refine ⟨?_, ?_, ?_, ?_⟩
    · intro mb hmb
      have := (List.mem_filter.mp hmb).2
      simpa using this
    · intro tt htt
      have := (List.mem_filter.mp htt).2
      simpa using this
    · intro mm hmm hteam
      have hmemid := hmids mm (foldl_table_sub (fun st => st.matchesTable)
        (fun st m r h => (List.mem_filter.mp h).1) _ _ mm hmm) hteam
      exact foldl_table_none (fun st => st.matchesTable) (fun r => r.id)
        (fun st m r h => (List.mem_filter.mp h).1)
        (fun st m r h => by have := (List.mem_filter.mp h).2; simpa using this)
        _ s mm.id hmemid mm hmm rfl
    · intro mid' hex
      rcases hex with ⟨mm, hmm, hid, hteam⟩
      subst hid
      have hmemid := hmids mm hmm hteam
      refine ⟨?_, ?_, ?_, ?_, ?_, ?_⟩
      · exact foldl_table_none (fun st => st.match_messages) (fun r => r.match_id)
          (fun st m r h => (List.mem_filter.mp h).1)
          (fun st m r h => by have := (List.mem_filter.mp h).2; simpa using this)
          _ s mm.id hmemid
      · exact foldl_table_none (fun st => st.match_tasks) (fun r => r.match_id)
          (fun st m r h => (List.mem_filter.mp h).1)
          (fun st m r h => by have := (List.mem_filter.mp h).2; simpa using this)
          _ s mm.id hmemid
      · exact foldl_table_none (fun st => st.lineup) (fun r => r.match_id)
          (fun st m r h => (List.mem_filter.mp h).1)
          (fun st m r h => by have := (List.mem_filter.mp h).2; simpa using this)
          _ s mm.id hmemid
      · exact foldl_table_none (fun st => st.match_dates) (fun r => r.match_id)
          (fun st m r h => (List.mem_filter.mp h).1)
          (fun st m r h => by have := (List.mem_filter.mp h).2; simpa using this)
          _ s mm.id hmemid
      · exact foldl_table_none (fun st => st.matchesTable) (fun r => r.id)
          (fun st m r h => (List.mem_filter.mp h).1)
          (fun st m r h => by have := (List.mem_filter.mp h).2; simpa using this)
          _ s mm.id hmemid
      · intro md hmd hmdid a ha
        exact foldl_avail_none _ s mm.id hmemid md hmd hmdid a ha

/-- Witness for C1: the captain deletes team 1 of the fixture (owning
match 10 with a proposed date and two membership rows); afterwards no
membership or match row carries team id 1 and no date row carries match
id 10. -/
theorem C1_witness :
    (∀ mb ∈ (team_delete s0 u9 1).st.memberships, mb.team_id ≠ 1) ∧
    (∀ mm ∈ (team_delete s0 u9 1).st.matchesTable, mm.team_id ≠ 1) ∧
    (∀ md ∈ (team_delete s0 u9 1).st.match_dates, md.match_id ≠ 10) := by
  have h := (C1_cascade_delete s0 u9 10 1).2 ⟨1, 1, "Alpha", 9⟩ (by decide)
  have h4 := h.2.2.2 10 ⟨⟨10, 1, "Riverside", "Halle 1", "planned", none⟩,
    by decide, rfl, rfl⟩
  exact ⟨h.1, h.2.2.1, h4.2.2.2.1⟩

lemma require_captain_fail (s : DBState) (u : UserRow) (team_id : Nat) (t : TeamRow)
    (ht : s.teams.find? (fun tt => tt.id == team_id) = some t)
    (hne : t.captain_id ≠ u.id) (had : u.role ≠ "club_admin") :
    require_captain s u team_id = none := by
  simp only [require_captain, ht]
  rw [if_pos ⟨hne, had⟩]

lemma require_match_captain_fail (s : DBState) (u : UserRow) (match_id : Nat)
    (m : MatchRow) (t : TeamRow)
    (hm : s.matchesTable.find? (fun mm => mm.id == match_id) = some m)
    (ht : s.teams.find? (fun tt => tt.id == m.team_id) = some t)
    (hne : t.captain_id ≠ u.id) (had : u.role ≠ "club_admin") :
    require_match_captain s u match_id = none := by
  simp only [require_match_captain, hm, ht]
  rw [if_pos ⟨hne, had⟩]

lemma require_match_member_fail (s : DBState) (u : UserRow) (match_id : Nat)
    (m : MatchRow) (t : TeamRow)
    (hm : s.matchesTable.find? (fun mm => mm.id == match_id) = some m)
    (ht : s.teams.find? (fun tt => tt.id == m.team_id) = some t)
    (hmem : s.memberships.find? (fun mb => mb.team_id == m.team_id && mb.user_id == u.id
      && mb.is_approved == 1) = none)
    (had : u.role ≠ "club_admin") :
    require_match_member s u match_id = none := by
  simp only [require_match_member, hm, ht]
  rw [if_pos ⟨hmem, had⟩]

/-- Claim C8: whenever the target of a guarded operation exists but the
actor fails the operation's authorization predicate (captain-or-admin,
approved-member, or holding a lineup entry for the respond operation),
the handler answers the Unauthorized outcome with the state unchanged, no
outbound mail and no flash. -/
theorem C8_unauthorized_no_effect (s : DBState) (u : UserRow)
    (team_id user_id match_id date_id : Nat)
    (action now opp loc content task response : String)
    (dates : List String) (dids pids : List Nat) :
    (∀ t : TeamRow, s.teams.find? (fun tt => tt.id == team_id) = some t →
      t.captain_id ≠ u.id → u.role ≠ "club_admin" →
      team_delete s u team_id = ⟨Resp.unauthorized, s, [], []⟩ ∧
      team_requests s u team_id user_id action now = ⟨Resp.unauthorized, s, [], []⟩ ∧
      match_create s u team_id opp loc dates = ⟨Resp.unauthorized, s, [], []⟩) ∧
    (∀ (m : MatchRow) (t : TeamRow),
      s.matchesTable.find? (fun mm => mm.id == match_id) = some m →
      s.teams.find? (fun tt => tt.id == m.team_id) = some t →
      t.captain_id ≠ u.id → u.role ≠ "club_admin" →
      match_edit_post s u match_id opp loc dates = ⟨Resp.unauthorized, s, [], []⟩ ∧
      match_delete s u match_id = ⟨Resp.unauthorized, s, [], []⟩ ∧
      match_confirm_date s u match_id date_id = ⟨Resp.unauthorized, s, [], []⟩ ∧
      match_set_lineup s u match_id pids = ⟨Resp.unauthorized, s, [], []⟩) ∧
    (∀ (m : MatchRow) (t : TeamRow),
      s.matchesTable.find? (fun mm => mm.id == match_id) = some m →
      s.teams.find? (fun tt => tt.id == m.team_id) = some t →
      s.memberships.find? (fun mb => mb.team_id == m.team_id && mb.user_id == u.id
        && mb.is_approved == 1) = none →
      u.role ≠ "club_admin" →
      match_availability s u match_id dids = ⟨Resp.unauthorized, s, [], []⟩ ∧
      match_task s u match_id task = ⟨Resp.unauthorized, s, [], []⟩ ∧
      match_message s u match_id content = ⟨Resp.unauthorized, s, [], []⟩ ∧
      match_detail s u match_id = ⟨Resp.unauthorized, s, [], []⟩) ∧
    (s.lineup.find? (fun r => r.match_id == match_id && r.user_id == u.id) = none →
      match_confirm_lineup s u match_id response = ⟨Resp.unauthorized, s, [], []⟩) := by
  refine ⟨?_, ?_, ?_, ?_⟩
  · intro t ht hne had
    have hg := require_captain_fail s u team_id t ht hne had
    exact ⟨by simp [team_delete, hg], by simp [team_requests, hg], by simp [match_create, hg]⟩
  · intro m t hm ht hne had
    have hg := require_match_captain_fail s u match_id m t hm ht hne had
    refine ⟨by simp [match_edit_post, hg], by simp [match_delete, hg], ?_, ?_⟩
    · simp only [match_confirm_date, hm, ht]
      rw [if_pos ⟨hne, had⟩]
    · simp only [match_set_lineup, hm, ht]
      rw [if_pos ⟨hne, had⟩]
  · intro m t hm ht hmem had
    have hg := require_match_member_fail s u match_id m t hm ht hmem had
    exact ⟨by simp [match_availability, hg], by simp [match_task, hg],
      by simp [match_message, hg], by simp [match_detail, hg]⟩
  · intro hl
    simp [match_confirm_lineup, hl]

/-- Witness for C8: user 8 (exists in no membership, not a captain, not an
admin) probes team 1 and match 10 of the fixture: deletion, task claim and
lineup response all answer the bare Unauthorized with nothing changed. -/
theorem C8_witness :
    team_delete s0 u8 1 = ⟨Resp.unauthorized, s0, [], []⟩ ∧
    match_task s0 u8 10 "Balls" = ⟨Resp.unauthorized, s0, [], []⟩ ∧
    match_confirm_lineup s0 u8 10 "yes" = ⟨Resp.unauthorized, s0, [], []⟩ := by
  have h := C8_unauthorized_no_effect s0 u8 1 7 10 1 "approve" "t" "o" "l" "c" "Balls"
    "yes" [] [] []
  exact ⟨(h.1 ⟨1, 1, "Alpha", 9⟩ (by decide) (by decide) (by decide)).1,
    (h.2.2.1 ⟨10, 1, "Riverside", "Halle 1", "planned", none⟩ ⟨1, 1, "Alpha", 9⟩
      (by decide) (by decide) (by decide) (by decide)).2.1,
    h.2.2.2 (by decide)⟩

/-- Counterexample to claim C9 as stated: probing `match_confirm_date`
with the unprivileged user 8, a missing match answers "Not found" (404)
while an existing match the actor may not manage answers "Unauthorized"
(403) — the two outcomes are distinguishable, so existence leaks. -/
theorem C9_counterexample :
    (match_confirm_date s0 u8 99 1).resp = Resp.notFound ∧
    (match_confirm_date s0 u8 10 1).resp = Resp.unauthorized ∧
    Resp.notFound ≠ Resp.unauthorized := by decide

/-- Claim C9 as amended: every operation gated through `require_captain`,
`require_match_captain` or `require_match_member` answers the identical
Unauthorized outcome whether the target is missing or the actor merely
fails the predicate, so those operations do not leak existence; but
`match_confirm_date` and `match_set_lineup` answer NotFound for a missing
match and Unauthorized for an existing one, which distinguishes the two
cases. -/
theorem C9_probe_indistinguishable_amended (s : DBState) (u : UserRow)
    (team_id user_id match_id date_id : Nat)
    (action now opp loc content task : String)
    (dates : List String) (dids pids : List Nat) :
    (require_captain s u team_id = none →
      team_delete s u team_id = ⟨Resp.unauthorized, s, [], []⟩ ∧
      team_requests s u team_id user_id action now = ⟨Resp.unauthorized, s, [], []⟩ ∧
      match_create s u team_id opp loc dates = ⟨Resp.unauthorized, s, [], []⟩) ∧
    (require_match_captain s u match_id = none →
      match_edit_post s u match_id opp loc dates = ⟨Resp.unauthorized, s, [], []⟩ ∧
      match_delete s u match_id = ⟨Resp.unauthorized, s, [], []⟩) ∧
    (require_match_member s u match_id = none →
      match_availability s u match_id dids = ⟨Resp.unauthorized, s, [], []⟩ ∧
      match_task s u match_id task = ⟨Resp.unauthorized, s, [], []⟩ ∧
      match_message s u match_id content = ⟨Resp.unauthorized, s, [], []⟩ ∧
      match_detail s u match_id = ⟨Resp.unauthorized, s, [], []⟩) ∧
    (s.matchesTable.find? (fun mm => mm.id == match_id) = none →
      (match_confirm_date s u match_id date_id).resp = Resp.notFound ∧
      (match_set_lineup s u match_id pids).resp = Resp.notFound) ∧
    (∀ (m : MatchRow) (t : TeamRow),
      s.matchesTable.find? (fun mm => mm.id == match_id) = some m →
      s.teams.find? (fun tt => tt.id == m.team_id) = some t →
      t.captain_id ≠ u.id → u.role ≠ "club_admin" →
      (match_confirm_date s u match_id date_id).resp = Resp.unauthorized ∧
      (match_set_lineup s u match_id pids).resp = Resp.unauthorized) ∧
    Resp.notFound ≠ Resp.unauthorized := by
  refine ⟨?_, ?_, ?_, ?_, ?_, by simp⟩
  · intro hg
    exact ⟨by simp [team_delete, hg], by simp [team_requests, hg], by simp [match_create, hg]⟩
  · intro hg
    exact ⟨by simp [match_edit_post, hg], by simp [match_delete, hg]⟩
  · intro hg
    exact ⟨by simp [match_availability, hg], by simp [match_task, hg],
      by simp [match_message, hg], by simp [match_detail, hg]⟩
  · intro hm
    exact ⟨by simp [match_confirm_date, hm], by simp [match_set_lineup, hm]⟩
  · intro m t hm ht hne had
    constructor
    · simp only [match_confirm_date, hm, ht]
      rw [if_pos ⟨hne, had⟩]
    · simp only [match_set_lineup, hm, ht]
      rw [if_pos ⟨hne, had⟩]

/-- Witness for the amended C9: with user 8 probing the fixture, a missing
team 99 and the existing team 1 produce the identical Unauthorized
response from team deletion, while a missing match 99 makes
`match_confirm_date` answer NotFound. -/
theorem C9_witness :
    team_delete s0 u8 99 = ⟨Resp.unauthorized, s0, [], []⟩ ∧
    team_delete s0 u8 1 = ⟨Resp.unauthorized, s0, [], []⟩ ∧
    (match_confirm_date s0 u8 99 1).resp = Resp.notFound := by
  have h99 := C9_probe_indistinguishable_amended s0 u8 99 7 99 1 "approve" "t" "o" "l"
    "c" "Balls" [] [] []
  have h1 := C9_probe_indistinguishable_amended s0 u8 1 7 10 1 "approve" "t" "o" "l"
    "c" "Balls" [] [] []
  exact ⟨(h99.1 (by decide)).1, (h1.1 (by decide)).1, (h99.2.2.2.1 (by decide)).1⟩

end Interclub
